import Mathlib

/-!
Verification of the Django application & model registry (app cache),
`src/django/core/apps/cache.py`, against its natural-language specification.

The registry state (`AppCache`) and its operations (`populate_apps`,
`populate_models`, `get_models`, `get_model`, `register_model`,
`set_available_apps`, the scoped test contexts) are shallowly embedded as
pure Lean functions.  Python's in-place mutation plus exceptions is modelled
by the result type `PyR`, which carries the state at the moment an exception
is raised.  `OrderedDict` values are embedded as association lists with
insertion-order semantics (updating an existing key keeps its position,
inserting a new key appends).  Module imports are an external effect; they
are modelled by an oracle environment (`Env`) and observed through
an import log carried in the state.

`AppConfig.create` and `AppConfig.import_models` live in `base.py`, which is
not part of the sources; those two operations are modelled from the spec
(see their doc comments).
-/

set_option autoImplicit false

/-- Insertion-ordered association list lookup (Python `dict.get`). -/
def odLookup {κ α : Type} [DecidableEq κ] : List (κ × α) → κ → Option α
  | [], _ => none
  | (k, v) :: rest, key => if k = key then some v else odLookup rest key

/-- `OrderedDict` assignment `d[k] = v`: update in place keeping the key's
position when present, append otherwise. -/
def odSet {κ α : Type} [DecidableEq κ] : List (κ × α) → κ → α → List (κ × α)
  | [], key, v => [(key, v)]
  | (k, w) :: rest, key, v =>
    if k = key then (k, v) :: rest else (k, w) :: odSet rest key v

/-- `del d[k]` / the removal part of `d.pop(k)`: drop the (first) entry with
the given key. -/
def odDelete {κ α : Type} [DecidableEq κ] : List (κ × α) → κ → List (κ × α)
  | [], _ => []
  | (k, v) :: rest, key => if k = key then rest else (k, v) :: odDelete rest key

/-- Python `set.add`: no-op when the element is present, append otherwise. -/
def setAdd (s : List String) (x : String) : List String :=
  if x ∈ s then s else s ++ [x]

/-- Python `set.discard`: remove the element if present. -/
def setDiscard (s : List String) (x : String) : List String :=
  s.filter (fun y => y ≠ x)

/-- Python `set(iterable)`: deduplicate, keeping first occurrences (a
concrete order chosen for the embedding; only membership matters). -/
def pySet : List String → List String
  | [] => []
  | x :: rest => if x ∈ rest then pySet rest else x :: pySet rest

/-- Membership of `pySet` is membership of the underlying list. -/
theorem mem_pySet (l : List String) (x : String) : x ∈ pySet l ↔ x ∈ l := by
  induction l with
  | nil => simp [pySet]
  | cons y rest ih =>
    by_cases h : y ∈ rest
    · simp only [pySet, if_pos h, ih, List.mem_cons]
      constructor
      · exact fun hx => Or.inr hx
      · rintro (rfl | hx)
        · exact h
        · exact hx
    · simp only [pySet, if_neg h, List.mem_cons, ih]

/-- Python set difference `a - b` on the list-as-set encoding. -/
def setDiff (a b : List String) : List String :=
  a.filter (fun x => x ∉ b)

/-- `name.rpartition(".")[2]` — the last dot-separated segment of a name
(the whole name when it has no dot). -/
def lastSegment (name : String) : String :=
  String.mk ((name.data.reverse.takeWhile (fun c => c ≠ '.')).reverse)

/-- Python `str.lower`, character-wise. -/
def pyLower (s : String) : String :=
  String.mk (s.data.map Char.toLower)

/-- Python `str.split(".")` on a character list: splitting the empty string
yields one empty segment. -/
def splitOnDot : List Char → List (List Char)
  | [] => [[]]
  | c :: rest =>
    let r := splitOnDot rest
    if c = '.' then [] :: r
    else
      match r with
      | [] => [[c]]
      | seg :: segs => (c :: seg) :: segs

/-- A model type, carrying exactly the attributes the registry reads:
`_meta.model_name`, the absolute source-file path of its defining module
(`sys.modules[model.__module__].__file__` after `upath`/`abspath`),
`_meta.app_label`, `_deferred`, `_meta.auto_created`, `_meta.swapped`. -/
structure Model where
  model_name : String
  file : String
  app_label : String
  deferred : Bool
  auto_created : Bool
  swapped : Bool
deriving DecidableEq, Repr

/-- The per-application descriptor.  Only the attributes that
`cache.py` reads are kept: the fully qualified `name` and the `label`. -/
structure AppConfig where
  name : String
  label : String
deriving DecidableEq, Repr

/-- An action performed against the external import facility: it imports
an application module (`AppConfig.create`) or an application's models
module (`AppConfig.import_models`). -/
inductive ImportAction where
  | app (name : String)
  | models (label : String)
deriving DecidableEq, Repr

/-- The key of the `get_models` memo cache:
`(app_mod, include_auto_created, include_deferred, only_installed,
include_swapped)`.  `app_mod` is embedded as the optional `__name__` of the
module object. -/
abbrev CacheKey := Option String × Bool × Bool × Bool × Bool

/-- The registry state: the fields of `AppCache.__init__`, plus `postponed`
(modelling the optional `_postponed` attribute, `none` when the attribute is
absent) and an `importLog` recording the import actions issued to the
external import facility. -/
structure AppCache where
  master : Bool
  all_models : List (String × List (String × Model))
  app_configs : List (String × AppConfig)
  available_apps : Option (List String)
  apps_loaded : Bool
  models_loaded : Bool
  postponed : Option (List AppConfig)
  get_models_cache : List (CacheKey × List Model)
  importLog : List ImportAction
deriving DecidableEq, Repr

/-- Result of a stateful operation in the embedding.  Python mutates the
registry in place, so an exception (`exn`) still carries the state at the
moment it was raised; `ok` carries the final state and the return value. -/
inductive PyR (α : Type) where
  | ok (s : AppCache) (v : α)
  | exn (e : String) (s : AppCache)
deriving DecidableEq, Repr

/-- Outcome of one attempt to import an application's models module:
success registers the module's models, failure is an `ImportError` with a
message. -/
inductive ImpResult where
  | ok (ms : List (String × Model))
  | err (e : String)
deriving DecidableEq, Repr

/-- Whether an import attempt outcome is an `ImportError`. -/
def ImpResult.isErr : ImpResult → Bool
  | .ok _ => false
  | .err _ => true

/-- The external collaborators of the registry: the configuration source
(`settings.INSTALLED_APPS`) and the module-import facility.
`importResult label isRetry` is the outcome of importing the models module
of the app with the given label; the flag distinguishes the first attempt
from a later retry (a cycle that failed first may succeed once its
dependencies are loaded). -/
structure Env where
  installed : List String
  importResult : String → Bool → ImpResult

/-- Access `self.all_models[label]` on the `defaultdict(OrderedDict)`:
reading a missing key inserts a fresh empty mapping. -/
def ensureLabel (s : AppCache) (label : String) : AppCache :=
  match odLookup s.all_models label with
  | some _ => s
  | none => { s with all_models := s.all_models ++ [(label, [])] }

/-- `self.all_models[label]` value after `ensureLabel`. -/
def modelsOf (s : AppCache) (label : String) : List (String × Model) :=
  (odLookup s.all_models label).getD []

/-- Modelled from the spec: `AppConfig.create(name)` lives in `base.py`,
which is not part of the sources.  It imports the application module and
builds the descriptor; the label is "derived from `name`'s last segment
unless overridden" (no claim involves an overridden label). -/
def AppConfig.create (name : String) : AppConfig :=
  ⟨name, lastSegment name⟩

/-- The loop body of `populate_apps`:
`app_config = AppConfig.create(app_name);
self.app_configs[app_config.label] = app_config`.  Resolving an application
name logs the application-module import. -/
def appStep (st : AppCache) (name : String) : AppCache :=
  let cfg := AppConfig.create name
  { st with
    app_configs := odSet st.app_configs cfg.label cfg
    importLog := st.importLog ++ [ImportAction.app name] }

/-- `AppCache.populate_apps` (`cache.py` lines 60-89).  The import lock and
its double-checked flag collapse in the sequential embedding. -/
def populate_apps (env : Env) (s : AppCache) : PyR Unit :=
  if s.apps_loaded then .ok s () else
  if s.app_configs ≠ [] then
    .exn "RuntimeError: populate_apps() is not reentrant" s
  else
    .ok { env.installed.foldl appStep s with apps_loaded := true } ()

/-- One models-module import step inside the registry
(`all_models = self.all_models[app_config.label];
app_config.import_models(all_models)`).  The `defaultdict` access creates
the label's entry even when the import then fails.  The import itself is
modelled from the spec: `AppConfig.import_models` lives in `base.py`, which
is not part of the sources; the external import facility either registers
the models module's models into the shared mapping or raises
`ImportError`. -/
def import_models_into (env : Env) (retry : Bool) (cfg : AppConfig) (s : AppCache) :
    PyR Unit :=
  let s1 := ensureLabel s cfg.label
  let s2 := { s1 with importLog := s1.importLog ++ [ImportAction.models cfg.label] }
  match env.importResult cfg.label retry with
  | .ok ms => .ok { s2 with all_models := odSet s2.all_models cfg.label ms } ()
  | .err e => .exn e s2

/-- The first pass of `populate_models`: an `ImportError` appends the app
config to `self._postponed` instead of propagating (the buffer always exists
on this path; `getD []` covers the unreachable missing-attribute case). -/
def first_pass (env : Env) : List AppConfig → AppCache → AppCache
  | [], s => s
  | cfg :: rest, s =>
    match import_models_into env false cfg s with
    | .ok s' _ => first_pass env rest s'
    | .exn _ s' =>
        first_pass env rest
          { s' with postponed := some ((s'.postponed.getD []) ++ [cfg]) }

/-- The retry pass of `populate_models`: each postponed config is imported
once more and any failure now propagates. -/
def retry_pass (env : Env) : List AppConfig → AppCache → PyR Unit
  | [], s => .ok s ()
  | cfg :: rest, s =>
    match import_models_into env true cfg s with
    | .ok s' _ => retry_pass env rest s'
    | .exn e s' => .exn e s'

/-- `AppCache.populate_models` (`cache.py` lines 91-134): outermost-call
detection via the presence of the `_postponed` attribute, a first pass that
postpones failing imports, and a retry pass plus flag setting and buffer
deletion only for the outermost invocation. -/
def populate_models (env : Env) (s : AppCache) : PyR Unit :=
  if s.models_loaded then .ok s () else
  match populate_apps env s with
  | .exn e s' => .exn e s'
  | .ok s1 _ =>
    let outermost := s1.postponed.isNone
    let s2 := if outermost then { s1 with postponed := some [] } else s1
    let s3 := first_pass env (s2.app_configs.map Prod.snd) s2
    if outermost then
      match retry_pass env (s3.postponed.getD []) s3 with
      | .exn e s4 => .exn e s4
      | .ok s4 _ => .ok { s4 with postponed := none, models_loaded := true } ()
    else
      .ok s3 ()

/-- Index of the last occurrence of a character in a character list
(`str.rfind` returns `-1` when absent; `none` here). -/
def lastIndexOf (cs : List Char) (c : Char) : Option Nat :=
  match cs with
  | [] => none
  | x :: rest =>
    match lastIndexOf rest c with
    | some i => some (i + 1)
    | none => if x = c then some 0 else none

/-- The root part of `os.path.splitext(p)` (posix): split off the suffix
starting at the last dot after the last slash, unless every character of
the basename before that dot is itself a dot (leading dots never start an
extension). -/
def splitextRoot (p : String) : String :=
  let cs := p.toList
  let sepIndex : Int := (lastIndexOf cs '/').elim (-1) (fun n => (n : Int))
  let dotIndex : Int := (lastIndexOf cs '.').elim (-1) (fun n => (n : Int))
  if dotIndex > sepIndex then
    let start := (sepIndex + 1).toNat
    let stop := dotIndex.toNat
    if ((cs.drop start).take (stop - start)).all (fun x => x = '.') then p
    else String.mk (cs.take stop)
  else p

/-- `AppCache.register_model` (`cache.py` lines 281-299).  A name collision
whose two defining files agree modulo extension returns silently; otherwise
the assignment `models[model_name] = model` runs and the whole
`get_models` cache is cleared. -/
def register_model (s : AppCache) (app_label : String) (model : Model) : AppCache :=
  let model_name := model.model_name
  let s1 := ensureLabel s app_label
  let models := modelsOf s1 app_label
  match odLookup models model_name with
  | some existing =>
    if splitextRoot model.file = splitextRoot existing.file then
      s1
    else
      { s1 with
        all_models := odSet s1.all_models app_label (odSet models model_name model)
        get_models_cache := [] }
  | none =>
    { s1 with
      all_models := odSet s1.all_models app_label (odSet models model_name model)
      get_models_cache := [] }

/-- `AppCache.get_model` (`cache.py` lines 259-279). -/
def get_model (env : Env) (s : AppCache) (app_label model_name : String)
    (only_installed : Bool) : PyR (Option Model) :=
  let oi := if ¬ s.master then false else only_installed
  match populate_models env s with
  | .exn e s' => .exn e s'
  | .ok s1 _ =>
    let go : AppCache → PyR (Option Model) := fun st =>
      let st' := ensureLabel st app_label
      .ok st' (odLookup (modelsOf st' app_label) (pyLower model_name))
    if oi then
      match odLookup s1.app_configs app_label with
      | none => .ok s1 none
      | some cfg =>
        match s1.available_apps with
        | some avail =>
          if cfg.name ∈ avail then go s1
          else .exn ("UnavailableApp: App with label " ++ app_label ++ " is not available.") s1
        | none => go s1
    else go s1

/-- The three exclusion predicates of `get_models` applied to one model,
each toggled by its flag. -/
def modelIncluded (include_auto_created include_deferred include_swapped : Bool)
    (m : Model) : Bool :=
  (!m.deferred || include_deferred) &&
  (!m.auto_created || include_auto_created) &&
  (!m.swapped || include_swapped)

/-- The availability filter of `get_models`:
`[m for m in model_list if self.app_configs[m._meta.app_label].name in
self.available_apps]`.  The dict indexing raises `KeyError` at the first
model whose app label has no installed config. -/
def availFilter (s : AppCache) (avail : List String) : List Model → Except String (List Model)
  | [] => .ok []
  | m :: rest =>
    match odLookup s.app_configs m.app_label with
    | none => .error ("KeyError: " ++ m.app_label)
    | some cfg =>
      match availFilter s avail rest with
      | .error e => .error e
      | .ok l => .ok (if cfg.name ∈ avail then m :: l else l)

/-- `app_mod.__name__.split(".")[-2]`; an `IndexError` when the module name
has a single segment. -/
def modLabel (modname : String) : Except String String :=
  let parts := splitOnDot modname.data
  if h : 2 ≤ parts.length then
    .ok (String.mk (parts.get ⟨parts.length - 2, by omega⟩))
  else .error "IndexError: list index out of range"

/-- Modelled from the spec: `app_config.models` — `AppConfig.import_models`
(in `base.py`, not part of the sources) binds the config's `models`
attribute to the registry's shared `all_models[label]` mapping, so the
installed view of a label is that shared mapping ("ordered mapping of
lowercase model name → model type, populated only for installed apps"). -/
def configModels (s : AppCache) (label : String) : List (String × Model) :=
  modelsOf s label

/-- The candidate model dictionaries of `get_models`: one app's installed
(or all) models when a module is given, every app's otherwise.  Returns the
possibly updated state — the `self.all_models[app_label]` access on the
non-installed branch creates the entry — and the dictionaries in order. -/
def modelDicts (s : AppCache) (app_mod : Option String) (oi : Bool) :
    Except String (AppCache × List (List (String × Model))) :=
  match app_mod with
  | some modname =>
    match modLabel modname with
    | .error e => .error e
    | .ok app_label =>
      if oi then
        match odLookup s.app_configs app_label with
        | some _ => .ok (s, [configModels s app_label])
        | none => .ok (s, [])
      else
        let s' := ensureLabel s app_label
        .ok (s', [modelsOf s' app_label])
  | none =>
    if oi then
      .ok (s, s.app_configs.map (fun p => configModels s p.2.label))
    else
      .ok (s, s.all_models.map Prod.snd)

/-- `AppCache.get_models` (`cache.py` lines 190-257): cache lookup keyed by
the full parameter tuple, recomputation through `populate_models` and the
three exclusion predicates on a miss, cache store of the unrestricted list,
and the availability filter applied after both the hit and the store. -/
def get_models (env : Env) (s : AppCache) (app_mod : Option String)
    (include_auto_created include_deferred only_installed include_swapped : Bool) :
    PyR (List Model) :=
  let oi := if ¬ s.master then false else only_installed
  let key : CacheKey := (app_mod, include_auto_created, include_deferred, oi, include_swapped)
  match odLookup s.get_models_cache key with
  | some cached =>
    match s.available_apps with
    | some avail =>
      if oi then
        match availFilter s avail cached with
        | .ok l => .ok s l
        | .error e => .exn e s
      else .ok s cached
    | none => .ok s cached
  | none =>
    match populate_models env s with
    | .exn e s' => .exn e s'
    | .ok s1 _ =>
      match modelDicts s1 app_mod oi with
      | .error e => .exn e s1
      | .ok (s2, dicts) =>
        let model_list := (dicts.map (fun d =>
          (d.map Prod.snd).filter
            (modelIncluded include_auto_created include_deferred include_swapped))).flatten
        let s3 := { s2 with get_models_cache := odSet s2.get_models_cache key model_list }
        match s3.available_apps with
        | some avail =>
          if oi then
            match availFilter s3 avail model_list with
            | .ok l => .ok s3 l
            | .error e => .exn e s3
          else .ok s3 model_list
        | none => .ok s3 model_list

/-- `AppCache.get_app_configs` with the default
`only_with_models_module=False` (the only form the verified claims use):
populate apps, then yield the configs filtered by `available_apps`. -/
def get_app_configs (env : Env) (s : AppCache) : PyR (List AppConfig) :=
  match populate_apps env s with
  | .exn e s' => .exn e s'
  | .ok s1 _ =>
    match s1.available_apps with
    | some avail =>
      .ok s1 ((s1.app_configs.map Prod.snd).filter (fun cfg => cfg.name ∈ avail))
    | none => .ok s1 (s1.app_configs.map Prod.snd)

/-- `AppCache.set_available_apps` (`cache.py` lines 322-338). -/
def set_available_apps (env : Env) (s : AppCache) (available : List String) : PyR Unit :=
  if s.available_apps.isSome then
    .exn "RuntimeError: set_available_apps() may be called only once in a row; make sure it is paired with unset_available_apps()" s
  else
    let avail := pySet available
    match get_app_configs env s with
    | .exn e s' => .exn e s'
    | .ok s1 cfgs =>
      let installed := pySet (cfgs.map AppConfig.name)
      if setDiff avail installed ≠ [] then
        .exn ("ValueError: Available apps is not a subset of installed apps, extra apps: "
          ++ String.intercalate ", " (setDiff avail installed)) s1
      else
        .ok { s1 with available_apps := some avail } ()

/-- `AppCache.unset_available_apps` (`cache.py` lines 340-344). -/
def unset_available_apps (s : AppCache) : AppCache :=
  { s with available_apps := none }

/-- `AppCache._begin_with_app`: create the config; when its label is
already registered return `None` (registry untouched), otherwise import its
models into the shared mapping, register the config and add its name to an
active `available_apps`. -/
def _begin_with_app (env : Env) (s : AppCache) (app_name : String) :
    PyR (Option AppConfig) :=
  let cfg := AppConfig.create app_name
  let s0 := { s with importLog := s.importLog ++ [ImportAction.app app_name] }
  if (odLookup s0.app_configs cfg.label).isSome then
    .ok s0 none
  else
    match import_models_into env false cfg s0 with
    | .exn e s1 => .exn e s1
    | .ok s1 _ =>
      let s2 := { s1 with app_configs := odSet s1.app_configs cfg.label cfg }
      match s2.available_apps with
      | some avail => .ok { s2 with available_apps := some (setAdd avail cfg.name) } (some cfg)
      | none => .ok s2 (some cfg)

/-- `AppCache._end_with_app`: delete the registered label and discard the
name from an active `available_apps`; a `None` token is a no-op. -/
def _end_with_app (cfgO : Option AppConfig) (s : AppCache) : AppCache :=
  match cfgO with
  | none => s
  | some cfg =>
    let s1 := { s with app_configs := odDelete s.app_configs cfg.label }
    match s1.available_apps with
    | some avail => { s1 with available_apps := some (setDiscard avail cfg.name) }
    | none => s1

/-- The `_with_app` context manager applied to caller-supplied work: the
teardown runs on both the normal and the exception exit path
(`try/finally`). -/
def _with_app_ctx (env : Env) (s : AppCache) (app_name : String)
    (work : AppCache → PyR Unit) : PyR Unit :=
  match _begin_with_app env s app_name with
  | .exn e s' => .exn e s'
  | .ok s1 cfgO =>
    match work s1 with
    | .ok s2 _ => .ok (_end_with_app cfgO s2) ()
    | .exn e s2 => .exn e (_end_with_app cfgO s2)

/-- `AppCache._begin_without_app`:
`self.app_configs.pop(app_name.rpartition(".")[2], None)`. -/
def _begin_without_app (s : AppCache) (app_name : String) :
    AppCache × Option AppConfig :=
  let label := lastSegment app_name
  match odLookup s.app_configs label with
  | some cfg => ({ s with app_configs := odDelete s.app_configs label }, some cfg)
  | none => (s, none)

/-- `AppCache._end_without_app`: re-insert the popped config under its
label (an `OrderedDict` assignment, so a fresh key lands at the end). -/
def _end_without_app (cfgO : Option AppConfig) (s : AppCache) : AppCache :=
  match cfgO with
  | none => s
  | some cfg => { s with app_configs := odSet s.app_configs cfg.label cfg }

/-- The `_without_app` context manager applied to caller-supplied work:
teardown on both exit paths. -/
def _without_app_ctx (s : AppCache) (app_name : String)
    (work : AppCache → PyR Unit) : PyR Unit :=
  let p := _begin_without_app s app_name
  match work p.1 with
  | .ok s2 _ => .ok (_end_without_app p.2 s2) ()
  | .exn e s2 => .exn e (_end_without_app p.2 s2)

/-- `AppCache._begin_empty`: swap `app_configs` with a fresh empty mapping
and hand back the old one. -/
def _begin_empty (s : AppCache) : AppCache × List (String × AppConfig) :=
  ({ s with app_configs := [] }, s.app_configs)

/-- `AppCache._end_empty`: reinstate the saved mapping. -/
def _end_empty (saved : List (String × AppConfig)) (s : AppCache) : AppCache :=
  { s with app_configs := saved }

/-- The `_empty` context manager applied to caller-supplied work: teardown
on both exit paths. -/
def _empty_ctx (s : AppCache) (work : AppCache → PyR Unit) : PyR Unit :=
  match work (_begin_empty s).1 with
  | .ok s2 _ => .ok (_end_empty s.app_configs s2) ()
  | .exn e s2 => .exn e (_end_empty s.app_configs s2)

/-- The app configs whose first-pass models-module import raises
`ImportError` under the given environment. -/
def firstFails (env : Env) (cfgs : List AppConfig) : List AppConfig :=
  cfgs.filter (fun cfg => (env.importResult cfg.label false).isErr)

/-- Whether every retry-pass import of the given configs succeeds. -/
def retriesOk (env : Env) (cfgs : List AppConfig) : Bool :=
  cfgs.all (fun cfg => !(env.importResult cfg.label true).isErr)

/-- The error of the first config whose retry-pass import fails. -/
def firstRetryErr (env : Env) : List AppConfig → Option String
  | [] => none
  | cfg :: rest =>
    match env.importResult cfg.label true with
    | .err e => some e
    | .ok _ => firstRetryErr env rest

/-- The final registry state of an operation, on either exit path (Python
mutates in place, so the state at an exception is still observable). -/
def pyrState {α : Type} : PyR α → AppCache
  | .ok s _ => s
  | .exn _ s => s

/-- The returned value of an operation, `none` when it raised. -/
def pyrValue {α : Type} : PyR α → Option α
  | .ok _ v => some v
  | .exn _ _ => none

theorem odLookup_odSet_self {κ α : Type} [DecidableEq κ] (l : List (κ × α)) (k : κ) (v : α) :
    odLookup (odSet l k v) k = some v := by
  induction l with
  | nil => simp [odSet, odLookup]
  | cons p rest ih =>
    obtain ⟨k', w⟩ := p
    by_cases h : k' = k
    · simp [odSet, odLookup, h]
    · simp [odSet, odLookup, h, ih]

theorem odLookup_odSet_ne {κ α : Type} [DecidableEq κ] (l : List (κ × α)) (k k' : κ) (v : α)
    (h : k' ≠ k) : odLookup (odSet l k v) k' = odLookup l k' := by
  induction l with
  | nil => simp [odSet, odLookup, Ne.symm h]
  | cons p rest ih =>
    obtain ⟨k₀, w⟩ := p
    by_cases h0 : k₀ = k
    · subst h0
      simp [odSet, odLookup, Ne.symm h]
    · simp only [odSet, if_neg h0, odLookup]
      by_cases h1 : k₀ = k'
      · simp [h1]
      · simp [h1, ih]

theorem mem_odSet_self {κ α : Type} [DecidableEq κ] (l : List (κ × α)) (k : κ) (v : α) :
    (k, v) ∈ odSet l k v := by
  induction l with
  | nil => simp [odSet]
  | cons p rest ih =>
    obtain ⟨k', w⟩ := p
    by_cases h : k' = k
    · subst h
      simp [odSet]
    · simp only [odSet, if_neg h, List.mem_cons]
      exact Or.inr ih

/-- Deleting a key that only occurs as the appended last entry restores the
original list. -/
theorem odDelete_append_last {κ α : Type} [DecidableEq κ] (l : List (κ × α)) (k : κ) (v : α)
    (h : odLookup l k = none) : odDelete (l ++ [(k, v)]) k = l := by
  induction l with
  | nil => simp [odDelete]
  | cons p rest ih =>
    obtain ⟨k', w⟩ := p
    simp only [odLookup] at h
    by_cases hk : k' = k
    · simp [hk] at h
    · simp only [List.cons_append, odDelete, if_neg hk]
      have h' : odLookup rest k = none := by simpa [hk] using h
      have := ih h'
      simp only [List.append_eq] at this ⊢
      rw [this]

/-- A key with no entry looks up to `none` in the deleted list iff it did
before; more precisely `odDelete` then `odSet` at the same key restores all
lookups when the deleted entry held exactly that key/value. -/
theorem odLookup_odDelete_ne {κ α : Type} [DecidableEq κ] (l : List (κ × α)) (k k' : κ)
    (h : k' ≠ k) : odLookup (odDelete l k) k' = odLookup l k' := by
  induction l with
  | nil => simp [odDelete]
  | cons p rest ih =>
    obtain ⟨k₀, w⟩ := p
    by_cases h0 : k₀ = k
    · subst h0
      simp [odDelete, odLookup, Ne.symm h]
    · simp only [odDelete, if_neg h0, odLookup]
      by_cases h1 : k₀ = k'
      · simp [h1]
      · simp [h1, ih]

/-- A fold over `appStep` never touches any field other than `app_configs`
and `importLog`. -/
theorem foldl_appStep_frame (l : List String) (st : AppCache) :
    (l.foldl appStep st).postponed = st.postponed ∧
    (l.foldl appStep st).models_loaded = st.models_loaded ∧
    (l.foldl appStep st).available_apps = st.available_apps ∧
    (l.foldl appStep st).all_models = st.all_models ∧
    (l.foldl appStep st).master = st.master ∧
    (l.foldl appStep st).apps_loaded = st.apps_loaded ∧
    (l.foldl appStep st).get_models_cache = st.get_models_cache := by
  induction l generalizing st with
  | nil => exact ⟨rfl, rfl, rfl, rfl, rfl, rfl, rfl⟩
  | cons b rest ih => simpa [appStep] using ih (appStep st b)

/-- `populate_apps` never touches any field other than `app_configs`,
`importLog` and the apps-populated flag, on either exit path. -/
theorem populate_apps_frame (env : Env) (s : AppCache) :
    (pyrState (populate_apps env s)).postponed = s.postponed ∧
    (pyrState (populate_apps env s)).models_loaded = s.models_loaded ∧
    (pyrState (populate_apps env s)).available_apps = s.available_apps ∧
    (pyrState (populate_apps env s)).all_models = s.all_models ∧
    (pyrState (populate_apps env s)).master = s.master ∧
    (pyrState (populate_apps env s)).get_models_cache = s.get_models_cache := by
  unfold populate_apps
  by_cases h1 : s.apps_loaded = true
  · simp [h1, pyrState]
  · by_cases h2 : s.app_configs = []
    · have hf := foldl_appStep_frame env.installed s
      simp only [h1, if_false, h2, ne_eq, not_true_eq_false, if_neg, pyrState]
      simp [pyrState, hf.1, hf.2.1, hf.2.2.1, hf.2.2.2.1, hf.2.2.2.2.1, hf.2.2.2.2.2.2]
    · simp [h1, h2, pyrState]

/-- A successful `populate_apps` leaves the apps-populated flag true. -/
theorem populate_apps_ok_loaded (env : Env) (s s' : AppCache) (v : Unit)
    (h : populate_apps env s = .ok s' v) : s'.apps_loaded = true := by
  unfold populate_apps at h
  by_cases h1 : s.apps_loaded = true
  · simp only [h1, if_true] at h
    cases h
    exact h1
  · by_cases h2 : s.app_configs = []
    · simp only [h1, h2, ne_eq, not_true_eq_false, if_false, if_neg] at h
      cases h
      rfl
    · simp [h1, h2] at h

/-- Sample configs and environments used by the concrete witnesses. -/
def cfgA : AppConfig := ⟨"pkg.a", "a"⟩

def cfgB : AppConfig := ⟨"pkg.b", "b"⟩

/-- An environment with no configured apps whose imports all succeed with
no models. -/
def envNone : Env := ⟨[], fun _ _ => ImpResult.ok []⟩

/-- A state in which apps population has not happened yet but a config is
already registered. -/
def sC6 : AppCache :=
  { master := true, all_models := [], app_configs := [("a", cfgA)],
    available_apps := none, apps_loaded := false, models_loaded := false,
    postponed := none, get_models_cache := [], importLog := [] }

/-- C6: if the population body of `populate_apps` runs (the apps-populated
flag is still false) while `app_configs` is already non-empty, it raises
`RuntimeError` before resolving any configured application name (the import
log is unchanged), leaving `app_configs` unchanged and the flag false. -/
theorem C6_populate_apps_reentrancy (env : Env) (s : AppCache)
    (hl : s.apps_loaded = false) (hc : s.app_configs ≠ []) :
    populate_apps env s = .exn "RuntimeError: populate_apps() is not reentrant" s ∧
    (pyrState (populate_apps env s)).app_configs = s.app_configs ∧
    (pyrState (populate_apps env s)).apps_loaded = false ∧
    (pyrState (populate_apps env s)).importLog = s.importLog := by
  unfold populate_apps
  simp [hl, hc, pyrState]

/-- Concrete instance of `C6_populate_apps_reentrancy`. -/
theorem C6_witness :
    populate_apps envNone sC6 = .exn "RuntimeError: populate_apps() is not reentrant" sC6 ∧
    (pyrState (populate_apps envNone sC6)).app_configs = sC6.app_configs ∧
    (pyrState (populate_apps envNone sC6)).apps_loaded = false ∧
    (pyrState (populate_apps envNone sC6)).importLog = sC6.importLog :=
  C6_populate_apps_reentrancy envNone sC6 (by decide) (by decide)

/-- A successful outermost `populate_models` leaves the models-populated
flag true. -/
theorem populate_models_ok_loaded (env : Env) (s s' : AppCache)
    (hp : s.postponed = none) (h : populate_models env s = .ok s' ()) :
    s'.models_loaded = true := by
  unfold populate_models at h
  by_cases h1 : s.models_loaded = true
  · simp only [h1, if_true] at h
    cases h
    exact h1
  · simp only [h1, if_false] at h
    cases hpa : populate_apps env s with
    | exn e s1 =>
      rw [hpa] at h
      simp at h
    | ok s1 v =>
      rw [hpa] at h
      have hp1 : s1.postponed = none := by
        have hfr := (populate_apps_frame env s).1
        rw [hpa] at hfr
        simpa [pyrState, hp] using hfr
      simp only [hp1, Option.isNone_none, if_true] at h
      cases hrp : retry_pass env
          ((first_pass env ((({ s1 with postponed := some [] } : AppCache)).app_configs.map Prod.snd)
            { s1 with postponed := some [] }).postponed.getD [])
          (first_pass env ((({ s1 with postponed := some [] } : AppCache)).app_configs.map Prod.snd)
            { s1 with postponed := some [] }) with
      | exn e s4 =>
        rw [hrp] at h
        simp at h
      | ok s4 v4 =>
        rw [hrp] at h
        cases h
        rfl

/-- C7: after a successful completion of `populate_apps` (respectively an
outermost successful completion of `populate_models` — the completion that
owns the deferral buffer and sets the flag), every further call returns the
very same state, so `app_configs`, `all_models`, both readiness flags,
`available_apps`, the lookup cache and the import log are all unchanged and
no further application or model imports are performed. -/
theorem C7_population_idempotent (env : Env) (s s' : AppCache) :
    (populate_apps env s = .ok s' () → populate_apps env s' = .ok s' ()) ∧
    (s.postponed = none → populate_models env s = .ok s' () →
      populate_models env s' = .ok s' ()) := by
  constructor
  · intro h
    have hld := populate_apps_ok_loaded env s s' () h
    unfold populate_apps
    simp [hld]
  · intro hp h
    have hld := populate_models_ok_loaded env s s' hp h
    unfold populate_models
    simp [hld]

/-- An environment with two configured apps whose imports all succeed. -/
def envAB : Env := ⟨["pkg.a", "pkg.b"], fun _ _ => ImpResult.ok []⟩

/-- The pristine master state (`AppCache.__init__` with `master=True`). -/
def s0 : AppCache :=
  { master := true, all_models := [], app_configs := [], available_apps := none,
    apps_loaded := false, models_loaded := false, postponed := none,
    get_models_cache := [], importLog := [] }

/-- The state after apps population of `s0` under `envAB`. -/
def s0apps : AppCache := pyrState (populate_apps envAB s0)

/-- The state after models population of `s0` under `envAB`. -/
def s0models : AppCache := pyrState (populate_models envAB s0)

/-- Concrete instance of `C7_population_idempotent`: repopulating the
already populated state is a no-op. -/
theorem C7_witness :
    populate_apps envAB s0apps = .ok s0apps () ∧
    populate_models envAB s0models = .ok s0models () :=
  ⟨(C7_population_idempotent envAB s0 s0apps).1 (by decide),
   (C7_population_idempotent envAB s0 s0models).2 (by decide) (by decide)⟩

/-- A label whose models mapping yields a model is present in `all_models`,
so the `defaultdict` access leaves the state unchanged. -/
theorem all_models_present_of_model (s : AppCache) (label nm : String) (old : Model)
    (h : odLookup (modelsOf s label) nm = some old) :
    odLookup s.all_models label = some (modelsOf s label) := by
  cases hl : odLookup s.all_models label with
  | some v => simp [modelsOf, hl]
  | none =>
    unfold modelsOf at h
    rw [hl] at h
    simp [odLookup] at h

/-- `ensureLabel` is the identity on a present label. -/
theorem ensureLabel_of_present (s : AppCache) (label : String) (v : List (String × Model))
    (h : odLookup s.all_models label = some v) : ensureLabel s label = s := by
  unfold ensureLabel
  rw [h]

/-- The first-registered model and the colliding second registration. -/
def mFirst : Model := ⟨"m", "/a/b.py", "a", false, false, false⟩

def mSecond : Model := ⟨"m", "/c/d.py", "a", false, false, false⟩

def mSameFile : Model := ⟨"m", "/a/b.pyc", "a", false, false, false⟩

/-- A populated master state holding `mFirst` and a warm lookup cache. -/
def sC2 : AppCache :=
  { master := true, all_models := [("a", [("m", mFirst)])], app_configs := [("a", cfgA)],
    available_apps := none, apps_loaded := true, models_loaded := true,
    postponed := none, get_models_cache := [((none, false, false, true, false), [mFirst])],
    importLog := [] }

/-- C2 counterexample: registering a second model under an already-taken
name whose defining source file differs (also after stripping the
extension) does NOT keep the first-registered model in
`all_models[app_label]` — the second registration overwrites it, refuting
"the first-registered model type stays ... a colliding registration is
never treated as an overwrite". -/
theorem C2_counterexample :
    odLookup (modelsOf (register_model sC2 "a" mSecond) "a") "m" = some mSecond ∧
    mSecond ≠ mFirst := by decide

/-- C2 (amended): on a `register_model` name collision, when the two
models' defining source files are equal after stripping the filename
extension the call returns with `all_models` and the lookup cache unchanged
(the whole state is unchanged) and does not raise; otherwise the second
registration overwrites the first-registered model under the colliding key
(last registration wins) and clears the lookup cache. -/
theorem C2_register_model_collision (s : AppCache) (app_label : String) (m old : Model)
    (hold : odLookup (modelsOf s app_label) m.model_name = some old) :
    (splitextRoot m.file = splitextRoot old.file → register_model s app_label m = s) ∧
    (splitextRoot m.file ≠ splitextRoot old.file →
      odLookup (modelsOf (register_model s app_label m) app_label) m.model_name = some m ∧
      (register_model s app_label m).get_models_cache = []) := by
  have hpres := all_models_present_of_model s app_label m.model_name old hold
  have hens := ensureLabel_of_present s app_label (modelsOf s app_label) hpres
  constructor
  · intro heq
    simp only [register_model, hens, hold, if_pos heq]
  · intro hne
    have hreg : register_model s app_label m =
        { s with
          all_models := odSet s.all_models app_label
            (odSet (modelsOf s app_label) m.model_name m)
          get_models_cache := [] } := by
      simp only [register_model, hens, hold, if_neg hne]
    rw [hreg]
    refine ⟨?_, rfl⟩
    simp only [modelsOf, odLookup_odSet_self, Option.getD_some]

/-- Concrete instance of `C2_register_model_collision`: a re-import of the
same file as a compiled artifact is dropped; a different file overwrites. -/
theorem C2_witness :
    register_model sC2 "a" mSameFile = sC2 ∧
    odLookup (modelsOf (register_model sC2 "a" mSecond) "a") "m" = some mSecond ∧
    (register_model sC2 "a" mSecond).get_models_cache = [] :=
  ⟨(C2_register_model_collision sC2 "a" mSameFile mFirst (by decide)).1 (by decide),
   (C2_register_model_collision sC2 "a" mSecond mFirst (by decide)).2 (by decide)⟩

/-- `populate_models` on an already-populated registry returns immediately
with the state unchanged. -/
theorem populate_models_noop (env : Env) (s : AppCache) (h : s.models_loaded = true) :
    populate_models env s = .ok s () := by
  unfold populate_models
  simp [h]

/-- C3: with the master cache populated, an active `available_apps` that
excludes the name of the installed app owning `app_label` makes `get_model`
(with `only_installed` at its default `True`) raise `UnavailableApp` — for
every `model_name`, hence in particular when no model of that name exists
under `app_label` — instead of returning the not-found sentinel `None`:
the availability check runs before the model lookup and takes precedence
over the not-found outcome.  The state is unchanged. -/
theorem C3_get_model_unavailable (env : Env) (s : AppCache)
    (app_label model_name : String) (cfg : AppConfig) (avail : List String)
    (hmaster : s.master = true) (hload : s.models_loaded = true)
    (hcfg : odLookup s.app_configs app_label = some cfg)
    (hav : s.available_apps = some avail) (hex : cfg.name ∉ avail) :
    get_model env s app_label model_name true =
      .exn ("UnavailableApp: App with label " ++ app_label ++ " is not available.") s := by
  unfold get_model
  rw [populate_models_noop env s hload]
  simp [hmaster, hcfg, hav, hex]

/-- A populated two-app master state restricted to `pkg.a`. -/
def sC3 : AppCache :=
  { master := true, all_models := [("a", []), ("b", [])],
    app_configs := [("a", cfgA), ("b", cfgB)], available_apps := some ["pkg.a"],
    apps_loaded := true, models_loaded := true, postponed := none,
    get_models_cache := [], importLog := [] }

/-- Concrete instance of `C3_get_model_unavailable`: app `b` is installed
but unavailable, no model named `anything` exists there, and the lookup
still raises `UnavailableApp` rather than returning `None`. -/
theorem C3_witness :
    get_model envNone sC3 "b" "anything" true =
      .exn ("UnavailableApp: App with label " ++ "b" ++ " is not available.") sC3 ∧
    odLookup (modelsOf sC3 "b") (pyLower "anything") = none :=
  ⟨C3_get_model_unavailable envNone sC3 "b" "anything" cfgB ["pkg.a"]
     (by decide) (by decide) (by decide) (by decide) (by decide), by decide⟩

/-- `populate_apps` on an already-populated registry returns immediately
with the state unchanged. -/
theorem populate_apps_noop (env : Env) (s : AppCache) (h : s.apps_loaded = true) :
    populate_apps env s = .ok s () := by
  unfold populate_apps
  simp [h]

/-- C8: `set_available_apps` raises `RuntimeError` and leaves the state
unchanged when a restriction is already active; with no active restriction
(and apps populated) it raises `ValueError` naming exactly the extra
entries — the given names outside the installed names — when the names are
not a subset of the installed apps' names, leaving `available_apps`
unchanged; on success `available_apps` becomes exactly the given set; and
`unset_available_apps` afterwards restores unrestricted visibility. -/
theorem C8_set_available_apps (env : Env) (s : AppCache) (names : List String)
    (hload : s.apps_loaded = true) :
    (∀ av, s.available_apps = some av →
      set_available_apps env s names =
        .exn "RuntimeError: set_available_apps() may be called only once in a row; make sure it is paired with unset_available_apps()" s) ∧
    (s.available_apps = none →
      (∀ x, x ∈ setDiff (pySet names) (pySet ((s.app_configs.map Prod.snd).map AppConfig.name)) ↔
        (x ∈ names ∧ x ∉ (s.app_configs.map Prod.snd).map AppConfig.name)) ∧
      (setDiff (pySet names) (pySet ((s.app_configs.map Prod.snd).map AppConfig.name)) ≠ [] →
        set_available_apps env s names =
          .exn ("ValueError: Available apps is not a subset of installed apps, extra apps: "
            ++ String.intercalate ", "
              (setDiff (pySet names) (pySet ((s.app_configs.map Prod.snd).map AppConfig.name)))) s ∧
        (pyrState (set_available_apps env s names)).available_apps = none) ∧
      (setDiff (pySet names) (pySet ((s.app_configs.map Prod.snd).map AppConfig.name)) = [] →
        set_available_apps env s names =
          .ok { s with available_apps := some (pySet names) } () ∧
        (∀ x, x ∈ pySet names ↔ x ∈ names))) ∧
    (unset_available_apps (pyrState (set_available_apps env s names))).available_apps = none := by
  refine ⟨?_, ?_, ?_⟩
  · intro av hav
    unfold set_available_apps
    simp [hav]
  · intro hav
    refine ⟨?_, ?_, ?_⟩
    · intro x
      simp [setDiff, mem_pySet, List.mem_filter]
    · intro hne
      rw [List.map_map] at hne
      unfold set_available_apps get_app_configs
      rw [populate_apps_noop env s hload]
      simp only [hav, Option.isSome_none, Bool.false_eq_true, if_false]
      simp [hne, pyrState, hav, List.map_map]
    · intro heq
      rw [List.map_map] at heq
      unfold set_available_apps get_app_configs
      rw [populate_apps_noop env s hload]
      simp only [hav, Option.isSome_none, Bool.false_eq_true, if_false]
      simp [heq, mem_pySet]
  · rfl

/-- Two installed apps, no active restriction. -/
def sC8 : AppCache :=
  { master := true, all_models := [], app_configs := [("a", cfgA), ("b", cfgB)],
    available_apps := none, apps_loaded := true, models_loaded := true,
    postponed := none, get_models_cache := [], importLog := [] }

/-- The same registry with a restriction already active. -/
def sC8r : AppCache := { sC8 with available_apps := some ["pkg.a"] }

/-- Concrete instance of `C8_set_available_apps`: the three outcomes at a
two-app registry. -/
theorem C8_witness :
    set_available_apps envNone sC8r ["pkg.b"] =
      .exn "RuntimeError: set_available_apps() may be called only once in a row; make sure it is paired with unset_available_apps()" sC8r ∧
    set_available_apps envNone sC8 ["pkg.a", "pkg.x"] =
      .exn ("ValueError: Available apps is not a subset of installed apps, extra apps: "
        ++ String.intercalate ", "
          (setDiff (pySet ["pkg.a", "pkg.x"])
            (pySet ((sC8.app_configs.map Prod.snd).map AppConfig.name)))) sC8 ∧
    set_available_apps envNone sC8 ["pkg.a"] =
      .ok { sC8 with available_apps := some (pySet ["pkg.a"]) } () :=
  ⟨(C8_set_available_apps envNone sC8r ["pkg.b"] (by decide)).1 ["pkg.a"] (by decide),
   (((C8_set_available_apps envNone sC8 ["pkg.a", "pkg.x"] (by decide)).2.1
      (by decide)).2.1 (by decide)).1,
   (((C8_set_available_apps envNone sC8 ["pkg.a"] (by decide)).2.1
      (by decide)).2.2 (by decide)).1⟩

/-- Map a function over the final state of an outcome, on either exit
path. -/
def pyrMapState {α : Type} (f : AppCache → AppCache) : PyR α → PyR α
  | .ok s v => .ok (f s) v
  | .exn e s => .exn e (f s)

/-- `modelDicts` neither reads nor writes `available_apps`. -/
theorem modelDicts_setAv (s : AppCache) (x : Option (List String))
    (app_mod : Option String) (oi : Bool) :
    modelDicts { s with available_apps := x } app_mod oi =
      match modelDicts s app_mod oi with
      | .ok (t, d) => .ok ({ t with available_apps := x }, d)
      | .error e => .error e := by
  unfold modelDicts
  cases app_mod with
  | none => cases oi <;> rfl
  | some modname =>
    cases hml : modLabel modname with
    | error e => simp [hml]
    | ok lab =>
      simp only [hml]
      cases oi with
      | true => cases hcl : odLookup s.app_configs lab <;> simp [hcl, configModels, modelsOf]
      | false =>
        simp only [Bool.false_eq_true, if_false, ensureLabel, modelsOf]
        cases hall : odLookup s.all_models lab <;> simp [hall]

/-- With the effective `only_installed` false, `get_models` runs the same
computation whatever `available_apps` holds: no availability filter is
applied on the cache-hit or the recompute path, and only the
`available_apps` field itself distinguishes the final states. -/
theorem get_models_avail_bypass (env : Env) (s : AppCache) (hload : s.models_loaded = true)
    (app_mod : Option String) (iac idf oin isw : Bool)
    (hoi : (if ¬s.master = true then false else oin) = false) (av : Option (List String)) :
    get_models env { s with available_apps := av } app_mod iac idf oin isw =
      pyrMapState (fun t => { t with available_apps := av })
        (get_models env { s with available_apps := none } app_mod iac idf oin isw) := by
  unfold get_models
  simp only [hoi]
  cases hc : odLookup s.get_models_cache (app_mod, iac, idf, false, isw) with
  | some cached =>
    cases av <;> simp [hc, pyrMapState]
  | none =>
    simp only [hc]
    rw [populate_models_noop env { s with available_apps := av } hload,
        populate_models_noop env { s with available_apps := none } hload]
    simp only []
    rw [modelDicts_setAv s av app_mod false, modelDicts_setAv s none app_mod false]
    cases hd : modelDicts s app_mod false with
    | error e => simp [pyrMapState]
    | ok td =>
      obtain ⟨t, d⟩ := td
      cases av <;> simp [pyrMapState]

/-- C10: when `only_installed` is effectively false — passed as false, or
forced because the cache is not the master — the availability restriction
is bypassed entirely: `get_model` never raises `UnavailableApp` and
returns the `all_models` entry whatever `available_apps` holds (the
registry may also not install the app at all), and `get_models` applies no
`available_apps` filtering: its outcome under any `available_apps` value
equals the outcome under no restriction, only the `available_apps` field
itself differing in the final state. -/
theorem C10_only_installed_false_bypass (env : Env) (s : AppCache)
    (hload : s.models_loaded = true) (oin : Bool)
    (h : s.master = false ∨ oin = false) :
    (∀ app_label model_name,
      get_model env s app_label model_name oin =
        .ok (ensureLabel s app_label)
          (odLookup (modelsOf (ensureLabel s app_label) app_label) (pyLower model_name))) ∧
    (∀ (av : Option (List String)) (app_mod : Option String) (iac idf isw : Bool),
      get_models env { s with available_apps := av } app_mod iac idf oin isw =
        pyrMapState (fun t => { t with available_apps := av })
          (get_models env { s with available_apps := none } app_mod iac idf oin isw)) := by
  have hoi : (if ¬s.master = true then false else oin) = false := by
    rcases h with h | h <;> simp [h]
  constructor
  · intro app_label model_name
    unfold get_model
    rw [populate_models_noop env s hload]
    simp only [hoi]
    rfl
  · intro av app_mod iac idf isw
    exact get_models_avail_bypass env s hload app_mod iac idf oin isw hoi av

/-- A non-master registry holding one non-installed model, restricted to an
empty availability set. -/
def sC10 : AppCache :=
  { master := false, all_models := [("a", [("m", mFirst)])], app_configs := [],
    available_apps := some [], apps_loaded := true, models_loaded := true,
    postponed := none, get_models_cache := [], importLog := [] }

/-- Concrete instance of `C10_only_installed_false_bypass` on a non-master
registry restricted to nothing: the lookup still succeeds. -/
theorem C10_witness :
    get_model envNone sC10 "a" "M" true =
      .ok (ensureLabel sC10 "a")
        (odLookup (modelsOf (ensureLabel sC10 "a") "a") (pyLower "M")) ∧
    get_models envNone { sC10 with available_apps := some [] } none false false true false =
      pyrMapState (fun t => { t with available_apps := some [] })
        (get_models envNone { sC10 with available_apps := none } none false false true false) :=
  ⟨(C10_only_installed_false_bypass envNone sC10 (by decide) true (Or.inl (by decide))).1 "a" "M",
   (C10_only_installed_false_bypass envNone sC10 (by decide) true (Or.inl (by decide))).2
     (some []) none false false false⟩

/-- The membership test of the availability filter for one model:
the owning installed config's name is in the active set (`false` would be a
`KeyError` in the filter itself). -/
def availPass (s : AppCache) (avail : List String) (m : Model) : Bool :=
  match odLookup s.app_configs m.app_label with
  | some cfg => decide (cfg.name ∈ avail)
  | none => false

/-- `availFilter` reads only `app_configs` from the state. -/
theorem availFilter_congr (s1 s2 : AppCache) (h : s1.app_configs = s2.app_configs)
    (avail : List String) (l : List Model) :
    availFilter s1 avail l = availFilter s2 avail l := by
  induction l with
  | nil => rfl
  | cons m rest ih => simp only [availFilter, h, ih]

/-- When every model's app label has an installed config, the availability
filter is a plain `List.filter` and raises nothing. -/
theorem availFilter_eq_filter (s : AppCache) (avail : List String) (l : List Model)
    (hwf : ∀ m ∈ l, (odLookup s.app_configs m.app_label).isSome = true) :
    availFilter s avail l = .ok (l.filter (availPass s avail)) := by
  induction l with
  | nil => rfl
  | cons m rest ih =>
    have hm := hwf m (List.mem_cons_self m rest)
    cases hcl : odLookup s.app_configs m.app_label with
    | none => rw [hcl] at hm; simp at hm
    | some cfg =>
      have hrest := ih (fun x hx => hwf x (List.mem_cons_of_mem m hx))
      simp only [availFilter, hcl, hrest]
      by_cases hmem : cfg.name ∈ avail <;>
        simp [availPass, hcl, hmem, List.filter_cons]

/-- `modelDicts` never changes `app_configs`. -/
theorem modelDicts_app_configs (s t : AppCache) (app_mod : Option String) (oi : Bool)
    (d : List (List (String × Model))) (h : modelDicts s app_mod oi = .ok (t, d)) :
    t.app_configs = s.app_configs := by
  unfold modelDicts at h
  cases app_mod with
  | none =>
    cases oi <;> simp only [] at h <;> cases h <;> rfl
  | some modname =>
    cases hml : modLabel modname with
    | error e => simp [hml] at h
    | ok lab =>
      simp only [hml] at h
      cases oi with
      | true =>
        cases hcl : odLookup s.app_configs lab <;> simp only [hcl] at h <;>
          cases h <;> rfl
      | false =>
        simp only [Bool.false_eq_true, if_false, ensureLabel] at h
        cases hall : odLookup s.all_models lab <;> simp only [hall] at h <;>
          cases h <;> rfl

/-- C5: for every parameter tuple with `only_installed` true on the master
cache, the list `get_models` returns under an active `available_apps`
restriction equals the unrestricted result for that tuple filtered to the
models whose owning app name is in the set; the final cache equals the
unrestricted run's cache (which stores only the unrestricted list), the
filter running after the cache hit and after the cache store alike — so
toggling `available_apps` between calls never yields a stale or incorrectly
filtered result.  (`hwf` rules out the `KeyError` of filtering a model whose
app label has no installed config.) -/
theorem C5_get_models_restriction (env : Env) (s : AppCache)
    (hmaster : s.master = true) (hload : s.models_loaded = true)
    (av : List String) (app_mod : Option String) (iac idf isw : Bool)
    (t : AppCache) (l : List Model)
    (hrun : get_models env { s with available_apps := none } app_mod iac idf true isw = .ok t l)
    (hwf : ∀ m ∈ l, (odLookup s.app_configs m.app_label).isSome = true) :
    get_models env { s with available_apps := some av } app_mod iac idf true isw =
      .ok { t with available_apps := some av } (l.filter (availPass s av)) ∧
    ({ t with available_apps := some av } : AppCache).get_models_cache = t.get_models_cache := by
  refine ⟨?_, rfl⟩
  obtain ⟨ms, amod, acfg, aav, alod, mlod, pp, gc, il⟩ := s
  simp only [] at hmaster hload hwf ⊢
  subst hmaster
  subst hload
  unfold get_models at hrun ⊢
  simp only [not_true, if_false, eq_self_iff_true, ite_true, ite_false, not_false_iff] at hrun ⊢
  cases hc : odLookup gc (app_mod, iac, idf, true, isw) with
  | some cached =>
    simp only [hc] at hrun ⊢
    cases hrun
    have hcg := availFilter_congr
      (⟨true, amod, acfg, some av, alod, true, pp, gc, il⟩ : AppCache)
      (⟨true, amod, acfg, aav, alod, true, pp, gc, il⟩ : AppCache) rfl av l
    rw [hcg, availFilter_eq_filter _ av l hwf]
  | none =>
    simp only [hc] at hrun ⊢
    rw [populate_models_noop env (⟨true, amod, acfg, none, alod, true, pp, gc, il⟩ : AppCache) rfl] at hrun
    rw [populate_models_noop env (⟨true, amod, acfg, some av, alod, true, pp, gc, il⟩ : AppCache) rfl]
    simp only [] at hrun ⊢
    rw [modelDicts_setAv (⟨true, amod, acfg, aav, alod, true, pp, gc, il⟩ : AppCache) none app_mod true] at hrun
    rw [modelDicts_setAv (⟨true, amod, acfg, aav, alod, true, pp, gc, il⟩ : AppCache) (some av) app_mod true]
    cases hd : modelDicts (⟨true, amod, acfg, aav, alod, true, pp, gc, il⟩ : AppCache) app_mod true with
    | error e => simp [hd] at hrun
    | ok td =>
      obtain ⟨t0, d⟩ := td
      simp only [hd] at hrun ⊢
      cases hrun
      have hcfg0 := modelDicts_app_configs _ t0 app_mod true d hd
      have hcg := availFilter_congr
        { t0 with
          available_apps := some av
          get_models_cache := odSet t0.get_models_cache (app_mod, iac, idf, true, isw)
            ((d.map (fun d0 => (d0.map Prod.snd).filter (modelIncluded iac idf isw))).flatten) }
        (⟨true, amod, acfg, aav, alod, true, pp, gc, il⟩ : AppCache) (by simpa using hcfg0) av
        ((d.map (fun d0 => (d0.map Prod.snd).filter (modelIncluded iac idf isw))).flatten)
      rw [hcg, availFilter_eq_filter _ av _ hwf]

/-- A populated two-app master registry holding one model in app `a`, with
a cold lookup cache. -/
def sC5 : AppCache :=
  { master := true, all_models := [("a", [("m", mFirst)])],
    app_configs := [("a", cfgA), ("b", cfgB)], available_apps := none,
    apps_loaded := true, models_loaded := true, postponed := none,
    get_models_cache := [], importLog := [] }

/-- The state after the unrestricted `get_models` run on `sC5`. -/
def sC5run : AppCache :=
  pyrState (get_models envNone { sC5 with available_apps := none } none false false true false)

/-- The unrestricted `get_models` result list on `sC5`. -/
def lC5 : List Model :=
  (pyrValue (get_models envNone { sC5 with available_apps := none } none false false true false)).getD []

/-- Concrete instance of `C5_get_models_restriction`: restricted to
`pkg.b`, the call filters out app `a`'s model while caching the full
unrestricted list. -/
theorem C5_witness :
    get_models envNone { sC5 with available_apps := some ["pkg.b"] } none false false true false =
      .ok { sC5run with available_apps := some ["pkg.b"] }
        (lC5.filter (availPass sC5 ["pkg.b"])) ∧
    ({ sC5run with available_apps := some ["pkg.b"] } : AppCache).get_models_cache =
      sC5run.get_models_cache :=
  C5_get_models_restriction envNone sC5 (by decide) (by decide) ["pkg.b"] none false false false
    sC5run lC5 (by decide) (by decide)

/-- A successful lookup produces a member entry. -/
theorem odLookup_mem {κ α : Type} [DecidableEq κ] (l : List (κ × α)) (k : κ) (v : α)
    (h : odLookup l k = some v) : (k, v) ∈ l := by
  induction l with
  | nil => simp [odLookup] at h
  | cons p rest ih =>
    obtain ⟨k0, w⟩ := p
    by_cases hk : k0 = k
    · subst hk
      simp only [odLookup, if_pos rfl] at h
      cases h
      exact List.mem_cons_self _ _
    · simp only [odLookup, if_neg hk] at h
      exact List.mem_cons_of_mem _ (ih h)

/-- Appending an entry for an absent key makes it the lookup result. -/
theorem odLookup_append_absent {κ α : Type} [DecidableEq κ] (l : List (κ × α)) (k : κ) (v : α)
    (h : odLookup l k = none) : odLookup (l ++ [(k, v)]) k = some v := by
  induction l with
  | nil => simp [odLookup]
  | cons p rest ih =>
    obtain ⟨k0, w⟩ := p
    by_cases hk : k0 = k
    · simp [odLookup, hk] at h
    · simp only [odLookup, if_neg hk] at h
      simp only [List.cons_append, odLookup, if_neg hk]
      exact ih h

/-- After the `defaultdict` access the label is present and holds the
prior mapping (empty when the label was absent). -/
theorem ensureLabel_lookup (s : AppCache) (label : String) :
    odLookup (ensureLabel s label).all_models label = some (modelsOf s label) := by
  unfold ensureLabel modelsOf
  cases h : odLookup s.all_models label with
  | some v => simp [h]
  | none => simpa [h] using odLookup_append_absent s.all_models label [] h

/-- The `defaultdict` access does not change the label's mapping value. -/
theorem modelsOf_ensureLabel (s : AppCache) (label : String) :
    modelsOf (ensureLabel s label) label = modelsOf s label := by
  unfold modelsOf
  rw [ensureLabel_lookup s label]
  rfl

/-- The `defaultdict` access touches only `all_models`. -/
theorem ensureLabel_frame (s : AppCache) (label : String) :
    (ensureLabel s label).master = s.master ∧
    (ensureLabel s label).app_configs = s.app_configs ∧
    (ensureLabel s label).available_apps = s.available_apps ∧
    (ensureLabel s label).models_loaded = s.models_loaded ∧
    (ensureLabel s label).get_models_cache = s.get_models_cache := by
  unfold ensureLabel
  cases h : odLookup s.all_models label <;> simp

/-- `register_model` on a fresh model name: the assignment runs and the
whole lookup cache is cleared. -/
theorem register_model_new (s : AppCache) (app_label : String) (m : Model)
    (hnew : odLookup (modelsOf s app_label) m.model_name = none) :
    register_model s app_label m =
      { ensureLabel s app_label with
        all_models := odSet (ensureLabel s app_label).all_models app_label
          (odSet (modelsOf s app_label) m.model_name m)
        get_models_cache := [] } := by
  simp only [register_model]
  rw [modelsOf_ensureLabel, hnew]

/-- C4 (amended): every `register_model` call that inserts a new entry
clears the entire `get_models` cache — no cache entry from before the
registration is ever served afterwards, with any parameter tuple — and a
subsequent `get_models` call recomputes and includes the newly registered
model provided the model passes the tuple's inclusion flags and (for
`only_installed` tuples) its app is installed, with no availability
restriction hiding it. -/
theorem C4_register_model_cache_invalidation (env : Env) (s : AppCache)
    (app_label : String) (m : Model) (cfg : AppConfig)
    (hmaster : s.master = true) (hload : s.models_loaded = true)
    (hav : s.available_apps = none)
    (hnew : odLookup (modelsOf s app_label) m.model_name = none)
    (hcfg : odLookup s.app_configs app_label = some cfg) (hlabel : cfg.label = app_label)
    (iac idf isw : Bool) (hpass : modelIncluded iac idf isw m = true) (oin : Bool) :
    (register_model s app_label m).get_models_cache = [] ∧
    (∃ t l, get_models env (register_model s app_label m) none iac idf oin isw = .ok t l ∧
      m ∈ l) := by
  have hreg := register_model_new s app_label m hnew
  have hef := ensureLabel_frame s app_label
  have hAM : odLookup (register_model s app_label m).all_models app_label =
      some (odSet (modelsOf s app_label) m.model_name m) := by
    rw [hreg]
    exact odLookup_odSet_self _ _ _
  have hMO : modelsOf (register_model s app_label m) app_label =
      odSet (modelsOf s app_label) m.model_name m := by
    unfold modelsOf
    rw [hAM]
    rfl
  have hmm : (m.model_name, m) ∈ modelsOf (register_model s app_label m) app_label := by
    rw [hMO]
    exact mem_odSet_self _ _ _
  have hcache : (register_model s app_label m).get_models_cache = [] := by
    rw [hreg]
  have hcfgs : (register_model s app_label m).app_configs = s.app_configs := by
    rw [hreg]
    exact hef.2.1
  have hmas : (register_model s app_label m).master = true := by
    rw [hreg]
    exact hef.1.trans hmaster
  have hml2 : (register_model s app_label m).models_loaded = true := by
    rw [hreg]
    exact hef.2.2.2.1.trans hload
  have hav2 : (register_model s app_label m).available_apps = none := by
    rw [hreg]
    exact hef.2.2.1.trans hav
  refine ⟨hcache, ?_⟩
  unfold get_models
  simp only [hcache, hmas, hav2, not_true, if_false, ite_false, ite_true, odLookup]
  rw [populate_models_noop env _ hml2]
  cases oin with
  | true =>
    simp only [modelDicts, if_true, ite_true]
    simp only [hav2]
    refine ⟨_, _, rfl, ?_⟩
    refine List.mem_flatten.mpr
      ⟨List.filter (modelIncluded iac idf isw)
        (List.map Prod.snd (configModels (register_model s app_label m) cfg.label)), ?_, ?_⟩
    · refine List.mem_map.mpr ⟨configModels (register_model s app_label m) cfg.label, ?_, rfl⟩
      refine List.mem_map.mpr ⟨(app_label, cfg), ?_, rfl⟩
      rw [hcfgs]
      exact odLookup_mem _ _ _ hcfg
    · refine List.mem_filter.mpr ⟨?_, hpass⟩
      refine List.mem_map.mpr ⟨(m.model_name, m), ?_, rfl⟩
      rw [hlabel]
      exact hmm
  | false =>
    simp only [modelDicts, Bool.false_eq_true, if_false, ite_false]
    simp only [hav2]
    refine ⟨_, _, rfl, ?_⟩
    refine List.mem_flatten.mpr
      ⟨List.filter (modelIncluded iac idf isw)
        (List.map Prod.snd (odSet (modelsOf s app_label) m.model_name m)), ?_, ?_⟩
    · refine List.mem_map.mpr ⟨odSet (modelsOf s app_label) m.model_name m, ?_, rfl⟩
      refine List.mem_map.mpr ⟨(app_label, odSet (modelsOf s app_label) m.model_name m), ?_, rfl⟩
      exact odLookup_mem _ _ _ hAM
    · refine List.mem_filter.mpr ⟨?_, hpass⟩
      exact List.mem_map.mpr ⟨(m.model_name, m), mem_odSet_self _ _ _, rfl⟩

/-- An auto-created model belonging to app `a`. -/
def mAuto : Model := ⟨"m", "/a/b.py", "a", false, true, false⟩

/-- A populated one-app master registry with a warm cache entry for the
default `get_models` parameter tuple. -/
def sC4 : AppCache :=
  { master := true, all_models := [("a", [])], app_configs := [("a", cfgA)],
    available_apps := none, apps_loaded := true, models_loaded := true,
    postponed := none, get_models_cache := [((none, false, false, true, false), [])],
    importLog := [] }

/-- C4 counterexample: the default tuple was cached before the
registration, the insertion clears the whole cache and the later call
recomputes — but the recomputed result does NOT include the newly
registered model, because the model is auto-created and the tuple excludes
auto-created models.  This refutes "includes the newly registered model"
for every previously cached parameter tuple. -/
theorem C4_counterexample :
    odLookup sC4.get_models_cache (none, false, false, true, false) = some [] ∧
    (register_model sC4 "a" mAuto).get_models_cache = [] ∧
    pyrValue (get_models envNone (register_model sC4 "a" mAuto) none false false true false) =
      some [] ∧
    mAuto ∉ ([] : List Model) := by decide

/-- Concrete instance of `C4_register_model_cache_invalidation`: a plain
model registered into `sC4` is visible to the recomputed default tuple. -/
theorem C4_witness :
    (register_model sC4 "a" mFirst).get_models_cache = [] ∧
    (∃ t l, get_models envNone (register_model sC4 "a" mFirst) none false false true false =
        .ok t l ∧ mFirst ∈ l) :=
  C4_register_model_cache_invalidation envNone sC4 "a" mFirst cfgA (by decide) (by decide)
    (by decide) (by decide) (by decide) (by decide) false false false (by decide) true

/-- Lookup of a key absent from the key list misses. -/
theorem odLookup_eq_none_of_not_mem {κ α : Type} [DecidableEq κ] (l : List (κ × α)) (k : κ)
    (h : k ∉ l.map Prod.fst) : odLookup l k = none := by
  induction l with
  | nil => rfl
  | cons p rest ih =>
    obtain ⟨k0, w⟩ := p
    simp only [List.map_cons, List.mem_cons, not_or] at h
    simp only [odLookup, if_neg (fun hh : k0 = k => h.1 hh.symm)]
    exact ih h.2

/-- Lookup in an appended list falls through to the right part. -/
theorem odLookup_append {κ α : Type} [DecidableEq κ] (l1 l2 : List (κ × α)) (k : κ) :
    odLookup (l1 ++ l2) k =
      match odLookup l1 k with
      | some v => some v
      | none => odLookup l2 k := by
  induction l1 with
  | nil => rfl
  | cons p rest ih =>
    obtain ⟨k0, w⟩ := p
    by_cases hk : k0 = k <;> simp [odLookup, hk, ih]

/-- With duplicate-free keys, deleting a key removes it entirely. -/
theorem odDelete_nodup_lookup {κ α : Type} [DecidableEq κ] (l : List (κ × α)) (k : κ)
    (h : (l.map Prod.fst).Nodup) : odLookup (odDelete l k) k = none := by
  induction l with
  | nil => rfl
  | cons p rest ih =>
    obtain ⟨k0, w⟩ := p
    simp only [List.map_cons, List.nodup_cons] at h
    by_cases hk : k0 = k
    · subst hk
      simp only [odDelete, if_pos rfl]
      exact odLookup_eq_none_of_not_mem rest k0 h.1
    · simp only [odDelete, if_neg hk, odLookup, if_neg hk]
      exact ih h.2

/-- Assignment at an absent key appends the entry. -/
theorem odSet_absent {κ α : Type} [DecidableEq κ] (l : List (κ × α)) (k : κ) (v : α)
    (h : odLookup l k = none) : odSet l k v = l ++ [(k, v)] := by
  induction l with
  | nil => rfl
  | cons p rest ih =>
    obtain ⟨k0, w⟩ := p
    by_cases hk : k0 = k
    · simp [odLookup, hk] at h
    · simp only [odLookup, if_neg hk] at h
      simp [odSet, hk, ih h]

/-- Popping an entry and re-appending it preserves every lookup (keys
duplicate-free). -/
theorem odLookup_delete_append {κ α : Type} [DecidableEq κ] (l : List (κ × α)) (k : κ) (v : α)
    (hv : odLookup l k = some v) (hnd : (l.map Prod.fst).Nodup) (k' : κ) :
    odLookup (odDelete l k ++ [(k, v)]) k' = odLookup l k' := by
  rw [odLookup_append]
  by_cases hk : k' = k
  · subst hk
    rw [odDelete_nodup_lookup l k' hnd]
    simp [odLookup, hv]
  · rw [odLookup_odDelete_ne l k k' hk]
    cases h : odLookup l k' <;> simp [odLookup, hk, h, Ne.symm hk]

/-- Discarding an element that was only just added restores the set. -/
theorem setDiscard_append_self (av : List String) (x : String) (h : x ∉ av) :
    setDiscard (av ++ [x]) x = av := by
  unfold setDiscard
  rw [List.filter_append]
  have h1 : av.filter (fun y => y ≠ x) = av := by
    apply List.filter_eq_self.mpr
    intro y hy
    simp only [ne_eq, decide_eq_true_eq]
    exact fun hyx => h (hyx ▸ hy)
  have h2 : ([x].filter (fun y => y ≠ x)) = [] := by simp
  rw [h1, h2, List.append_nil]

/-- `_end_with_app` with a real token deletes exactly the registered
label. -/
theorem end_with_app_configs (cfg : AppConfig) (s2 : AppCache) :
    (_end_with_app (some cfg) s2).app_configs = odDelete s2.app_configs cfg.label := by
  unfold _end_with_app
  cases h : s2.available_apps <;> simp [h]

/-- `_end_with_app` with a real token discards exactly the added name from
an active `available_apps`. -/
theorem end_with_app_available (cfg : AppConfig) (s2 : AppCache) :
    (_end_with_app (some cfg) s2).available_apps =
      (match s2.available_apps with
       | some avail => some (setDiscard avail cfg.name)
       | none => none) := by
  unfold _end_with_app
  cases h : s2.available_apps <;> simp [h]

/-- C9 (amended): for work that does not itself change `app_configs`,
`available_apps` or `all_models`, on every exit path — normal completion or
an exception raised by the wrapped work — each scoped context tears down
its own mutation: `_without_app` re-inserts the removed AppConfig so that
every lookup is restored, but the re-inserted entry lands at the END of
`app_configs` (the original insertion order is restored only when the
removed app was the most recently inserted); `_with_app` is a registry
no-op when the app was already registered and otherwise removes the
temporarily added config exactly (including order) and restores
`available_apps` provided the app name was not already in it; `_empty`
reinstates the exact prior `app_configs` mapping and leaves `all_models`
to exactly what the work left. -/
theorem C9_scoped_contexts (env : Env) (s : AppCache) (app_name : String)
    (work : AppCache → PyR Unit)
    (hWc : ∀ st, (pyrState (work st)).app_configs = st.app_configs)
    (hWa : ∀ st, (pyrState (work st)).available_apps = st.available_apps)
    (hWm : ∀ st, (pyrState (work st)).all_models = st.all_models)
    (hnodup : (s.app_configs.map Prod.fst).Nodup) :
    (∀ cfg, odLookup s.app_configs (lastSegment app_name) = some cfg →
      cfg.label = lastSegment app_name →
      (pyrState (_without_app_ctx s app_name work)).app_configs =
        odDelete s.app_configs (lastSegment app_name) ++ [(lastSegment app_name, cfg)] ∧
      (∀ k, odLookup (pyrState (_without_app_ctx s app_name work)).app_configs k =
        odLookup s.app_configs k)) ∧
    (odLookup s.app_configs (lastSegment app_name) = none →
      (pyrState (_without_app_ctx s app_name work)).app_configs = s.app_configs) ∧
    (∀ cfg0, odLookup s.app_configs (lastSegment app_name) = some cfg0 →
      _with_app_ctx env s app_name work =
        work { s with importLog := s.importLog ++ [ImportAction.app app_name] }) ∧
    (odLookup s.app_configs (lastSegment app_name) = none →
      (env.importResult (lastSegment app_name) false).isErr = false →
      (pyrState (_with_app_ctx env s app_name work)).app_configs = s.app_configs ∧
      (s.available_apps = none →
        (pyrState (_with_app_ctx env s app_name work)).available_apps = none) ∧
      (∀ av, s.available_apps = some av → app_name ∉ av →
        (pyrState (_with_app_ctx env s app_name work)).available_apps = some av)) ∧
    ((pyrState (_empty_ctx s work)).app_configs = s.app_configs ∧
     (pyrState (_empty_ctx s work)).all_models = s.all_models) := by
  refine ⟨?_, ?_, ?_, ?_, ?_, ?_⟩
  · -- _without_app, label present
    intro cfg hcfg hlab
    unfold _without_app_ctx _begin_without_app
    simp only [hcfg]
    have hs1 :=
      hWc { s with app_configs := odDelete s.app_configs (lastSegment app_name) }
    constructor
    · cases hw : work { s with app_configs := odDelete s.app_configs (lastSegment app_name) } with
      | ok s2 v =>
        rw [hw] at hs1
        simp only [pyrState] at hs1
        simp only [pyrState, _end_without_app, hlab, hs1]
        rw [odSet_absent _ _ _ (odDelete_nodup_lookup s.app_configs (lastSegment app_name) hnodup)]
      | exn e s2 =>
        rw [hw] at hs1
        simp only [pyrState] at hs1
        simp only [pyrState, _end_without_app, hlab, hs1]
        rw [odSet_absent _ _ _ (odDelete_nodup_lookup s.app_configs (lastSegment app_name) hnodup)]
    · intro k
      cases hw : work { s with app_configs := odDelete s.app_configs (lastSegment app_name) } with
      | ok s2 v =>
        rw [hw] at hs1
        simp only [pyrState] at hs1
        simp only [pyrState, _end_without_app, hlab, hs1]
        rw [odSet_absent _ _ _ (odDelete_nodup_lookup s.app_configs (lastSegment app_name) hnodup)]
        exact odLookup_delete_append s.app_configs (lastSegment app_name) cfg hcfg hnodup k
      | exn e s2 =>
        rw [hw] at hs1
        simp only [pyrState] at hs1
        simp only [pyrState, _end_without_app, hlab, hs1]
        rw [odSet_absent _ _ _ (odDelete_nodup_lookup s.app_configs (lastSegment app_name) hnodup)]
        exact odLookup_delete_append s.app_configs (lastSegment app_name) cfg hcfg hnodup k
  · -- _without_app, label absent
    intro hno
    unfold _without_app_ctx _begin_without_app
    simp only [hno]
    have hs1 := hWc s
    cases hw : work s with
    | ok s2 v =>
      rw [hw] at hs1
      simp only [pyrState] at hs1
      simp only [pyrState, _end_without_app]
      exact hs1
    | exn e s2 =>
      rw [hw] at hs1
      simp only [pyrState] at hs1
      simp only [pyrState, _end_without_app]
      exact hs1
  · -- _with_app, already registered
    intro cfg0 hcfg0
    unfold _with_app_ctx _begin_with_app
    have : odLookup s.app_configs (AppConfig.create app_name).label = some cfg0 := hcfg0
    simp only [this, Option.isSome_some, if_true]
    cases hw : work { s with importLog := s.importLog ++ [ImportAction.app app_name] } with
    | ok s2 v =>
      cases v
      rfl
    | exn e s2 => rfl
  · -- _with_app, not registered, import succeeds
    intro hno himp
    obtain ⟨sB, hB, hBc, hBa⟩ :
        ∃ sB, _begin_with_app env s app_name = .ok sB (some (AppConfig.create app_name)) ∧
          sB.app_configs =
            s.app_configs ++ [(lastSegment app_name, AppConfig.create app_name)] ∧
          ((s.available_apps = none → sB.available_apps = none) ∧
           (∀ av, s.available_apps = some av →
              sB.available_apps = some (setAdd av app_name))) := by
      obtain ⟨sma, sam, sac, sav, sal, sml, spp, sgc, sil⟩ := s
      simp only [] at hno himp ⊢
      unfold _begin_with_app import_models_into
      simp only [AppConfig.create]
      simp only [hno, Option.isSome_none, Bool.false_eq_true, if_false]
      cases hi : env.importResult (lastSegment app_name) false with
      | err e =>
        rw [hi] at himp
        simp [ImpResult.isErr] at himp
      | ok ms =>
        unfold ensureLabel
        cases hall : odLookup sam (lastSegment app_name) with
        | some v =>
          simp only [hall]
          cases sav with
          | none =>
            exact ⟨_, rfl, by rw [odSet_absent _ _ _ hno], fun _ => rfl,
              fun av hv => Option.noConfusion hv⟩
          | some av =>
            refine ⟨_, rfl, by rw [odSet_absent _ _ _ hno],
              fun hv => Option.noConfusion hv, ?_⟩
            intro av0 hv
            injection hv with h
            rw [h]
        | none =>
          simp only [hall]
          cases sav with
          | none =>
            exact ⟨_, rfl, by rw [odSet_absent _ _ _ hno], fun _ => rfl,
              fun av hv => Option.noConfusion hv⟩
          | some av =>
            refine ⟨_, rfl, by rw [odSet_absent _ _ _ hno],
              fun hv => Option.noConfusion hv, ?_⟩
            intro av0 hv
            injection hv with h
            rw [h]
    unfold _with_app_ctx
    rw [hB]
    simp only []
    cases hw : work sB with
    | ok s2 v =>
      have h2c := hWc sB
      rw [hw] at h2c
      simp only [pyrState] at h2c
      have h2a := hWa sB
      rw [hw] at h2a
      simp only [pyrState] at h2a
      refine ⟨?_, ?_, ?_⟩
      · simp only [pyrState, end_with_app_configs, h2c, hBc, AppConfig.create]
        exact odDelete_append_last s.app_configs (lastSegment app_name) _ hno
      · intro hv
        simp only [pyrState, end_with_app_available, h2a, hBa.1 hv]
      · intro av hv hnm
        simp only [pyrState, end_with_app_available, h2a, hBa.2 av hv, AppConfig.create]
        unfold setAdd
        by_cases hmem : app_name ∈ av
        · exact absurd hmem hnm
        · simp only [if_neg hmem]
          rw [setDiscard_append_self av app_name hnm]
    | exn e s2 =>
      have h2c := hWc sB
      rw [hw] at h2c
      simp only [pyrState] at h2c
      have h2a := hWa sB
      rw [hw] at h2a
      simp only [pyrState] at h2a
      refine ⟨?_, ?_, ?_⟩
      · simp only [pyrState, end_with_app_configs, h2c, hBc, AppConfig.create]
        exact odDelete_append_last s.app_configs (lastSegment app_name) _ hno
      · intro hv
        simp only [pyrState, end_with_app_available, h2a, hBa.1 hv]
      · intro av hv hnm
        simp only [pyrState, end_with_app_available, h2a, hBa.2 av hv, AppConfig.create]
        unfold setAdd
        by_cases hmem : app_name ∈ av
        · exact absurd hmem hnm
        · simp only [if_neg hmem]
          rw [setDiscard_append_self av app_name hnm]
  · -- _empty app_configs
    unfold _empty_ctx _begin_empty
    cases hw : work { s with app_configs := [] } with
    | ok s2 v => simp [pyrState, _end_empty]
    | exn e s2 => simp [pyrState, _end_empty]
  · -- _empty all_models
    unfold _empty_ctx _begin_empty
    have hs1 := hWm { s with app_configs := [] }
    cases hw : work { s with app_configs := [] } with
    | ok s2 v =>
      rw [hw] at hs1
      simpa [pyrState, _end_empty] using hs1
    | exn e s2 =>
      rw [hw] at hs1
      simpa [pyrState, _end_empty] using hs1

/-- A populated two-app master registry (no restriction). -/
def sC9 : AppCache :=
  { master := true, all_models := [], app_configs := [("a", cfgA), ("b", cfgB)],
    available_apps := none, apps_loaded := true, models_loaded := true,
    postponed := none, get_models_cache := [], importLog := [] }

/-- A registry without app `a` but whose availability set still names it
(reachable: `set_available_apps` then `_without_app`). -/
def sC9w : AppCache :=
  { sC9 with app_configs := [("b", cfgB)], available_apps := some ["pkg.a"] }

/-- C9 counterexample: `_without_app("pkg.a")` on configs `[a, b]` restores
the entries but re-inserts `a` at the END — the resulting mapping is
`[b, a]`, not the prior `[a, b]`, refuting "including its insertion order
equals the prior one"; and `_with_app("pkg.a")` on a registry whose
availability set already names the (unregistered) app discards the name on
teardown, leaving `available_apps` different from the prior state. -/
theorem C9_counterexample :
    (pyrState (_without_app_ctx sC9 "pkg.a" (fun st => .ok st ()))).app_configs =
      [("b", cfgB), ("a", cfgA)] ∧
    sC9.app_configs = [("a", cfgA), ("b", cfgB)] ∧
    (pyrState (_without_app_ctx sC9 "pkg.a" (fun st => .ok st ()))).app_configs ≠
      sC9.app_configs ∧
    (pyrState (_with_app_ctx envNone sC9w "pkg.a" (fun st => .ok st ()))).available_apps =
      some [] ∧
    sC9w.available_apps = some ["pkg.a"] := by decide

/-- Concrete instance of `C9_scoped_contexts`, with work that raises: the
teardown still runs — `_without_app` restores every lookup (with `a` moved
to the end) and `_empty` reinstates the prior mapping. -/
theorem C9_witness :
    ((pyrState (_without_app_ctx sC9 "pkg.a" (fun st => .exn "boom" st))).app_configs =
       odDelete sC9.app_configs (lastSegment "pkg.a") ++ [(lastSegment "pkg.a", cfgA)] ∧
     (∀ k, odLookup
        (pyrState (_without_app_ctx sC9 "pkg.a" (fun st => .exn "boom" st))).app_configs k =
       odLookup sC9.app_configs k)) ∧
    (pyrState (_empty_ctx sC9 (fun st => .exn "boom" st))).app_configs = sC9.app_configs :=
  ⟨(C9_scoped_contexts envNone sC9 "pkg.a" (fun st => .exn "boom" st)
      (fun _ => rfl) (fun _ => rfl) (fun _ => rfl) (by decide)).1 cfgA (by decide) (by decide),
   (C9_scoped_contexts envNone sC9 "pkg.a" (fun st => .exn "boom" st)
      (fun _ => rfl) (fun _ => rfl) (fun _ => rfl) (by decide)).2.2.2.2.1⟩

/-- The `defaultdict` access also leaves the buffer, the apps flag and
the import log alone. -/
theorem ensureLabel_frame2 (s : AppCache) (label : String) :
    (ensureLabel s label).postponed = s.postponed ∧
    (ensureLabel s label).apps_loaded = s.apps_loaded ∧
    (ensureLabel s label).importLog = s.importLog := by
  unfold ensureLabel
  cases h : odLookup s.all_models label <;> simp

/-- One models-import step: the final state (on either exit path) keeps the
buffer, both flags and `app_configs`, and appends exactly one entry to
the import log; the exit path is decided by the import oracle's outcome. -/
theorem import_models_into_shape (env : Env) (retry : Bool) (cfg : AppConfig) (s : AppCache) :
    ((pyrState (import_models_into env retry cfg s)).postponed = s.postponed ∧
     (pyrState (import_models_into env retry cfg s)).models_loaded = s.models_loaded ∧
     (pyrState (import_models_into env retry cfg s)).apps_loaded = s.apps_loaded ∧
     (pyrState (import_models_into env retry cfg s)).app_configs = s.app_configs ∧
     (pyrState (import_models_into env retry cfg s)).importLog =
       s.importLog ++ [ImportAction.models cfg.label]) ∧
    (∀ ms, env.importResult cfg.label retry = .ok ms →
      import_models_into env retry cfg s =
        .ok (pyrState (import_models_into env retry cfg s)) ()) ∧
    (∀ e, env.importResult cfg.label retry = .err e →
      import_models_into env retry cfg s =
        .exn e (pyrState (import_models_into env retry cfg s))) := by
  have hef := ensureLabel_frame s cfg.label
  have hef2 := ensureLabel_frame2 s cfg.label
  unfold import_models_into
  cases hi : env.importResult cfg.label retry with
  | ok ms =>
    refine ⟨⟨?_, ?_, ?_, ?_, ?_⟩, ?_, ?_⟩
    · simp [pyrState, hef2.1]
    · simp [pyrState, hef.2.2.2.1]
    · simp [pyrState, hef2.2.1]
    · simp [pyrState, hef.2.1]
    · simp [pyrState, hef2.2.2]
    · intro ms2 h2
      rfl
    · intro e h2
      cases h2
  | err e =>
    refine ⟨⟨?_, ?_, ?_, ?_, ?_⟩, ?_, ?_⟩
    · simp [pyrState, hef2.1]
    · simp [pyrState, hef.2.2.2.1]
    · simp [pyrState, hef2.2.1]
    · simp [pyrState, hef.2.1]
    · simp [pyrState, hef2.2.2]
    · intro ms2 h2
      cases h2
    · intro e2 h2
      cases h2
      rfl

/-- The first pass of `populate_models` is total: it attempts every config
in declared order (one log entry each), appends exactly the configs
whose import raised `ImportError` to the buffer — in order, after whatever
the buffer already held — and never touches the flags or `app_configs`. -/
theorem first_pass_spec (env : Env) :
    ∀ (cfgs : List AppConfig) (s : AppCache) (buf : List AppConfig),
    s.postponed = some buf →
    (first_pass env cfgs s).postponed = some (buf ++ firstFails env cfgs) ∧
    (first_pass env cfgs s).models_loaded = s.models_loaded ∧
    (first_pass env cfgs s).apps_loaded = s.apps_loaded ∧
    (first_pass env cfgs s).app_configs = s.app_configs ∧
    (first_pass env cfgs s).importLog =
      s.importLog ++ cfgs.map (fun c => ImportAction.models c.label) := by
  intro cfgs
  induction cfgs with
  | nil =>
    intro s buf hb
    simp [first_pass, firstFails, hb]
  | cons cfg rest ih =>
    intro s buf hb
    have hsh := import_models_into_shape env false cfg s
    have hps := hsh.1
    have hmatch : first_pass env (cfg :: rest) s =
        match import_models_into env false cfg s with
        | .ok s' _ => first_pass env rest s'
        | .exn _ s' =>
          first_pass env rest
            { s' with postponed := some ((s'.postponed.getD []) ++ [cfg]) } := rfl
    cases hi : env.importResult cfg.label false with
    | ok ms =>
      have heq := hsh.2.1 ms hi
      have hstep : first_pass env (cfg :: rest) s =
          first_pass env rest (pyrState (import_models_into env false cfg s)) := by
        rw [hmatch, heq]
        rfl
      rw [hstep]
      have ihh := ih (pyrState (import_models_into env false cfg s)) buf
        (by rw [hps.1, hb])
      have hff : firstFails env (cfg :: rest) = firstFails env rest := by
        simp [firstFails, hi, ImpResult.isErr]
      refine ⟨?_, ?_, ?_, ?_, ?_⟩
      · rw [ihh.1, hff]
      · rw [ihh.2.1, hps.2.1]
      · rw [ihh.2.2.1, hps.2.2.1]
      · rw [ihh.2.2.2.1, hps.2.2.2.1]
      · rw [ihh.2.2.2.2, hps.2.2.2.2]
        simp
    | err e =>
      have heq := hsh.2.2 e hi
      have hstep : first_pass env (cfg :: rest) s =
          first_pass env rest
            { pyrState (import_models_into env false cfg s) with
              postponed := some
                (((pyrState (import_models_into env false cfg s)).postponed.getD []) ++ [cfg]) } := by
        rw [hmatch, heq]
        rfl
      rw [hstep]
      have ihh := ih
        { pyrState (import_models_into env false cfg s) with
          postponed := some
            (((pyrState (import_models_into env false cfg s)).postponed.getD []) ++ [cfg]) }
        (buf ++ [cfg]) (by simp [hps.1, hb])
      have hff : firstFails env (cfg :: rest) = cfg :: firstFails env rest := by
        simp [firstFails, hi, ImpResult.isErr]
      refine ⟨?_, ?_, ?_, ?_, ?_⟩
      · rw [ihh.1, hff]
        simp
      · rw [ihh.2.1]
        simp [hps.2.1]
      · rw [ihh.2.2.1]
        simp [hps.2.2.1]
      · rw [ihh.2.2.2.1]
        simp [hps.2.2.2.1]
      · rw [ihh.2.2.2.2]
        simp [hps.2.2.2.2]

/-- When every retry succeeds, the retry pass returns normally, attempting
each config exactly once in order, leaving flags and buffer alone. -/
theorem retry_pass_spec_ok (env : Env) :
    ∀ (cfgs : List AppConfig) (s : AppCache), retriesOk env cfgs = true →
    ∃ s', retry_pass env cfgs s = .ok s' () ∧
      s'.models_loaded = s.models_loaded ∧ s'.postponed = s.postponed ∧
      s'.importLog = s.importLog ++ cfgs.map (fun c => ImportAction.models c.label) := by
  intro cfgs
  induction cfgs with
  | nil =>
    intro s _
    exact ⟨s, rfl, rfl, rfl, by simp⟩
  | cons cfg rest ih =>
    intro s h
    simp only [retriesOk, List.all_cons, Bool.and_eq_true] at h
    have hsh := import_models_into_shape env true cfg s
    have hps := hsh.1
    cases hi : env.importResult cfg.label true with
    | err e =>
      rw [hi] at h
      simp [ImpResult.isErr] at h
    | ok ms =>
      have heq := hsh.2.1 ms hi
      have hmatch : retry_pass env (cfg :: rest) s =
          match import_models_into env true cfg s with
          | .ok s' _ => retry_pass env rest s'
          | .exn e s' => .exn e s' := rfl
      have hstep : retry_pass env (cfg :: rest) s =
          retry_pass env rest (pyrState (import_models_into env true cfg s)) := by
        rw [hmatch, heq]
        rfl
      obtain ⟨s', hs', h1, h2, h3⟩ := ih (pyrState (import_models_into env true cfg s)) h.2
      refine ⟨s', by rw [hstep, hs'], ?_, ?_, ?_⟩
      · rw [h1, hps.2.1]
      · rw [h2, hps.1]
      · rw [h3, hps.2.2.2.2]
        simp

/-- When some retry fails, the retry pass propagates the first failing
config's `ImportError` unchanged, leaving the flag and the buffer as they
were. -/
theorem retry_pass_spec_err (env : Env) :
    ∀ (cfgs : List AppConfig) (s : AppCache) (e : String),
    firstRetryErr env cfgs = some e →
    ∃ s', retry_pass env cfgs s = .exn e s' ∧
      s'.models_loaded = s.models_loaded ∧ s'.postponed = s.postponed := by
  intro cfgs
  induction cfgs with
  | nil =>
    intro s e h
    simp [firstRetryErr] at h
  | cons cfg rest ih =>
    intro s e h
    have hsh := import_models_into_shape env true cfg s
    have hps := hsh.1
    cases hi : env.importResult cfg.label true with
    | err e0 =>
      obtain rfl : e0 = e := by simpa [firstRetryErr, hi] using h
      have heq := hsh.2.2 e0 hi
      refine ⟨pyrState (import_models_into env true cfg s), ?_, hps.2.1, hps.1⟩
      have hmatch : retry_pass env (cfg :: rest) s =
          match import_models_into env true cfg s with
          | .ok s' _ => retry_pass env rest s'
          | .exn e s' => .exn e s' := rfl
      rw [hmatch, heq]
      rfl
    | ok ms =>
      simp only [firstRetryErr, hi] at h
      have heq := hsh.2.1 ms hi
      obtain ⟨s', hs', h1, h2⟩ := ih (pyrState (import_models_into env true cfg s)) e h
      refine ⟨s', ?_, by rw [h1, hps.2.1], by rw [h2, hps.1]⟩
      have hmatch : retry_pass env (cfg :: rest) s =
          match import_models_into env true cfg s with
          | .ok s' _ => retry_pass env rest s'
          | .exn e s' => .exn e s' := rfl
      rw [hmatch, heq]
      exact hs'

/-- C1: `populate_models` (models not yet populated, apps populated) — a
non-outermost invocation (a deferral buffer exists) runs only the first
pass: every config is attempted once in declared order, import failures are
appended to the existing buffer instead of propagating, no retry entry is
logged, no buffer is created and the models-populated flag stays false.
The outermost invocation (no buffer) creates the buffer, runs the first
pass the same way, then retries each postponed config exactly once in
order: if all retries succeed it sets the flag and discards the buffer;
if one fails, that `ImportError` propagates to the caller unchanged and
the flag is still false and the buffer still present. -/
theorem C1_populate_models_deferral (env : Env) (s : AppCache)
    (hm : s.models_loaded = false) (ha : s.apps_loaded = true) :
    (∀ buf, s.postponed = some buf →
      ∃ s', populate_models env s = .ok s' () ∧
        s'.models_loaded = false ∧
        s'.postponed = some (buf ++ firstFails env (s.app_configs.map Prod.snd)) ∧
        s'.importLog = s.importLog ++
          (s.app_configs.map Prod.snd).map (fun c => ImportAction.models c.label)) ∧
    (s.postponed = none →
      retriesOk env (firstFails env (s.app_configs.map Prod.snd)) = true →
      ∃ s', populate_models env s = .ok s' () ∧
        s'.models_loaded = true ∧ s'.postponed = none ∧
        s'.importLog = s.importLog ++
          (s.app_configs.map Prod.snd).map (fun c => ImportAction.models c.label) ++
          (firstFails env (s.app_configs.map Prod.snd)).map
            (fun c => ImportAction.models c.label)) ∧
    (∀ e, s.postponed = none →
      firstRetryErr env (firstFails env (s.app_configs.map Prod.snd)) = some e →
      ∃ s', populate_models env s = .exn e s' ∧
        s'.models_loaded = false ∧ s'.postponed.isSome = true) := by
  have hpm : populate_models env s =
      (let outermost := s.postponed.isNone
       let s2 := if outermost then { s with postponed := some [] } else s
       let s3 := first_pass env (s2.app_configs.map Prod.snd) s2
       if outermost then
         match retry_pass env (s3.postponed.getD []) s3 with
         | .exn e s4 => .exn e s4
         | .ok s4 _ => .ok { s4 with postponed := none, models_loaded := true } ()
       else
         .ok s3 ()) := by
    unfold populate_models
    rw [if_neg (by simp [hm] : ¬ s.models_loaded = true)]
    rw [populate_apps_noop env s ha]
  refine ⟨?_, ?_, ?_⟩
  · intro buf hb
    rw [hpm]
    simp only [hb, Option.isNone_some, Bool.false_eq_true, if_false]
    have hfp := first_pass_spec env (s.app_configs.map Prod.snd) s buf hb
    exact ⟨_, rfl, hfp.2.1.trans hm, hfp.1, hfp.2.2.2.2⟩
  · intro hp hrok
    rw [hpm]
    simp only [hp, Option.isNone_none, if_true]
    have hfp := first_pass_spec env
      ((({ s with postponed := some [] } : AppCache)).app_configs.map Prod.snd)
      { s with postponed := some [] } [] rfl
    set s3 := first_pass env
      ((({ s with postponed := some [] } : AppCache)).app_configs.map Prod.snd)
      { s with postponed := some [] } with hs3
    obtain ⟨s4, hr4, hml4, hpp4, hlog4⟩ :=
      retry_pass_spec_ok env (s3.postponed.getD []) s3 (by rw [hfp.1]; simpa using hrok)
    rw [hr4]
    refine ⟨_, rfl, rfl, rfl, ?_⟩
    rw [hlog4, hfp.2.2.2.2]
    rw [hfp.1]
    simp
  · intro e hp hre
    rw [hpm]
    simp only [hp, Option.isNone_none, if_true]
    have hfp := first_pass_spec env
      ((({ s with postponed := some [] } : AppCache)).app_configs.map Prod.snd)
      { s with postponed := some [] } [] rfl
    set s3 := first_pass env
      ((({ s with postponed := some [] } : AppCache)).app_configs.map Prod.snd)
      { s with postponed := some [] } with hs3
    obtain ⟨s4, hr4, hml4, hpp4⟩ :=
      retry_pass_spec_err env (s3.postponed.getD []) s3 e (by rw [hfp.1]; simpa using hre)
    rw [hr4]
    refine ⟨s4, rfl, ?_, ?_⟩
    · rw [hml4, hfp.2.1]
      exact hm
    · rw [hpp4, hfp.1]
      rfl

/-- A config whose models module participates in an import cycle. -/
def cfgX : AppConfig := ⟨"pkg.x", "x"⟩

/-- Imports where app `x` fails on the first pass (unresolved cycle) and
succeeds on the retry; every other import succeeds. -/
def envCycle : Env :=
  ⟨["pkg.a", "pkg.x"], fun label retry =>
    if label = "x" then
      (if retry then ImpResult.ok [] else ImpResult.err "ImportError: cycle")
    else ImpResult.ok []⟩

/-- Imports where app `x` fails on both passes. -/
def envStuck : Env :=
  ⟨["pkg.a", "pkg.x"], fun label _ =>
    if label = "x" then ImpResult.err "ImportError: cycle" else ImpResult.ok []⟩

/-- Apps populated, models not yet populated, no deferral buffer. -/
def sC1 : AppCache :=
  { master := true, all_models := [], app_configs := [("a", cfgA), ("x", cfgX)],
    available_apps := none, apps_loaded := true, models_loaded := false,
    postponed := none, get_models_cache := [], importLog := [] }

/-- The same registry mid-population: a (still empty) deferral buffer
exists, so an invocation here is non-outermost. -/
def sC1n : AppCache := { sC1 with postponed := some [] }

/-- Concrete instance of `C1_populate_models_deferral`: the nested
invocation postpones app `x` without retrying or setting the flag; the
outermost invocation under the cycle-then-ok oracle retries `x` once and
completes; under the always-failing oracle the retry error propagates. -/
theorem C1_witness :
    (∃ s', populate_models envCycle sC1n = .ok s' () ∧
      s'.models_loaded = false ∧
      s'.postponed = some ([] ++ firstFails envCycle (sC1n.app_configs.map Prod.snd)) ∧
      s'.importLog = sC1n.importLog ++
        (sC1n.app_configs.map Prod.snd).map (fun c => ImportAction.models c.label)) ∧
    (∃ s', populate_models envCycle sC1 = .ok s' () ∧
      s'.models_loaded = true ∧ s'.postponed = none ∧
      s'.importLog = sC1.importLog ++
        (sC1.app_configs.map Prod.snd).map (fun c => ImportAction.models c.label) ++
        (firstFails envCycle (sC1.app_configs.map Prod.snd)).map
          (fun c => ImportAction.models c.label)) ∧
    (∃ s', populate_models envStuck sC1 = .exn "ImportError: cycle" s' ∧
      s'.models_loaded = false ∧ s'.postponed.isSome = true) :=
  ⟨(C1_populate_models_deferral envCycle sC1n (by decide) (by decide)).1 [] (by decide),
   (C1_populate_models_deferral envCycle sC1 (by decide) (by decide)).2.1 (by decide) (by decide),
   (C1_populate_models_deferral envStuck sC1 (by decide) (by decide)).2.2 "ImportError: cycle"
     (by decide) (by decide)⟩
